import Mathlib

/-!
A verification development for the AeroUnity mission-planning core.

The definitions below are a shallow embedding of the Python sources:
`src/core/constraints.py`, `src/core/planner_base.py`,
`src/aircraft/constraints.py`, `src/aircraft/models.py`,
`src/spacecraft/constraints.py`, `src/spacecraft/orbit.py` and
`src/spacecraft/planner.py`.  Python floats are modelled as exact
rationals (`ℚ`) where the code only uses field operations and
comparisons, and as real numbers (`ℝ`) where the code uses square
roots and trigonometric functions.  Python `Dict[str, Any]` states are
modelled per constraint by the fields that constraint actually reads;
a missing key is `Option.none`.  Shapely polygon objects are modelled
by their observable interface (a containment test and an
exterior-distance function).
-/

namespace AeroUnity

/-! ## Core numeric constraints (`src/core/constraints.py`) -/

/-- `NumericConstraint` from `src/core/constraints.py`.  The Python
defaults `lower_bound=-np.inf` / `upper_bound=np.inf` are modelled by
`Option.none` (a bound that can never be violated). -/
structure NumericConstraint where
  name : String
  variable_name : String
  lower_bound : Option ℚ
  upper_bound : Option ℚ
  constraint_type : String

/-- Test `value < self.lower_bound`; always false for the `-inf` default. -/
def belowLower : Option ℚ → ℚ → Bool
  | none, _ => false
  | some b, v => v < b

/-- Test `value > self.upper_bound`; always false for the `+inf` default. -/
def aboveUpper : Option ℚ → ℚ → Bool
  | none, _ => false
  | some b, v => b < v

/-- `NumericConstraint.evaluate`: `value = state.get(self.variable_name, 0.0)`,
then compare against the bounds, returning the distance past the violated
bound. -/
def NumericConstraint.evaluate (c : NumericConstraint)
    (state : String → Option ℚ) : Bool × ℚ :=
  let value := (state c.variable_name).getD 0
  if belowLower c.lower_bound value then (false, c.lower_bound.getD 0 - value)
  else if aboveUpper c.upper_bound value then (false, value - c.upper_bound.getD 0)
  else (true, 0)

/-- `GeofenceConstraint` from `src/core/constraints.py`.  A shapely
polygon is modelled by its containment test on 2-D points. -/
structure GeofenceConstraint where
  name : String
  no_fly_zones : List ((ℚ × ℚ) → Bool)
  constraint_type : String

/-- `GeofenceConstraint.evaluate`: `position = state.get('position', None)`;
`None` yields `(True, 0.0)`; otherwise the zone loop returns `(False, 1.0)`
at the first zone containing the point. -/
def GeofenceConstraint.evaluate (c : GeofenceConstraint)
    (position : Option (ℚ × ℚ)) : Bool × ℚ :=
  match position with
  | none => (true, 0)
  | some p => if c.no_fly_zones.any (fun zone => zone p) then (false, 1) else (true, 0)

/-! ## Planner base (`src/core/planner_base.py` and `ConstraintValidator`) -/

/-- A constraint as seen by `MissionPlanner.validate_solution` and
`ConstraintValidator.compute_penalty`: a name, a `'hard'`/`'soft'` tag,
an optional `violation_penalty` attribute (`none` models a Python object
without the attribute, for which `getattr` defaults to `1.0`), and the
`evaluate` method, over an abstract solution type `σ`. -/
structure PlannerConstraint (σ : Type) where
  name : String
  constraint_type : String
  violation_penalty : Option ℚ
  evaluate : σ → Bool × ℚ

/-- The violation list accumulated by the `validate_solution` loop: one
entry per hard constraint whose `evaluate` is unsatisfied, in constraint
order.  The formatted message is abstracted to the constraint's name. -/
def violationList {σ : Type} (constraints : List (PlannerConstraint σ))
    (solution : σ) : List String :=
  constraints.foldr
    (fun c acc =>
      if c.constraint_type = "hard" then
        if (c.evaluate solution).1 then acc else c.name :: acc
      else acc) []

/-- `MissionPlanner.validate_solution`: returns
`(len(violations) == 0, violations)`. -/
def validate_solution {σ : Type} (constraints : List (PlannerConstraint σ))
    (solution : σ) : Bool × List String :=
  (violationList constraints solution |>.isEmpty, violationList constraints solution)

/-- `ConstraintValidator.compute_penalty`: sum
`getattr(c, 'violation_penalty', 1.0) * violation_amount` over the violated
soft constraints. -/
def compute_penalty {σ : Type} (constraints : List (PlannerConstraint σ))
    (state : σ) : ℚ :=
  constraints.foldl
    (fun total c =>
      if c.constraint_type = "soft" then
        if (c.evaluate state).1 then total
        else total + c.violation_penalty.getD 1 * (c.evaluate state).2
      else total) 0

/-! ## Aircraft constraints (`src/aircraft/constraints.py`), rational part -/

/-- A shapely polygon as used by `AircraftGeofenceConstraint`: its
containment test and the distance from a point to its exterior ring. -/
structure AirZone where
  contains : (ℚ × ℚ) → Bool
  distExterior : (ℚ × ℚ) → ℚ

/-- `AircraftGeofenceConstraint` from `src/aircraft/constraints.py`. -/
structure AircraftGeofenceConstraint where
  name : String
  no_fly_polygons : List AirZone
  constraint_type : String

/-- `AircraftGeofenceConstraint.evaluate`: empty path returns `(True, 0.0)`;
otherwise the max over waypoints and zones of the penetration depth, and
`satisfied = (max_violation == 0.0)`. -/
def AircraftGeofenceConstraint.evaluate (c : AircraftGeofenceConstraint)
    (path : List (ℚ × ℚ)) : Bool × ℚ :=
  match path with
  | [] => (true, 0)
  | _ =>
    let mv := path.foldl
      (fun acc wp =>
        c.no_fly_polygons.foldl
          (fun acc2 zone =>
            if zone.contains wp then max acc2 (zone.distExterior wp) else acc2)
          acc) 0
    (if mv = 0 then true else false, mv)

/-- `EnergyConstraint` from `src/aircraft/constraints.py`. -/
structure EnergyConstraint where
  name : String
  initial_energy : ℚ
  min_reserve : ℚ
  constraint_type : String

/-- `EnergyConstraint.evaluate`: `total_energy = state.get('total_energy', 0.0)`;
violated iff `initial_energy - total_energy < min_reserve` (strict), with the
reserve shortfall as magnitude. -/
def EnergyConstraint.evaluate (c : EnergyConstraint)
    (total_energy : Option ℚ) : Bool × ℚ :=
  let te := total_energy.getD 0
  let energy_remaining := c.initial_energy - te
  if energy_remaining < c.min_reserve then (false, c.min_reserve - energy_remaining)
  else (true, 0)

/-! ## Downlink constraint (`src/spacecraft/constraints.py`) -/

/-- A schedule item as read by `DownlinkConstraint.evaluate`: its `type`
tag, the optional `target_id`, start/end times (seconds), and the
`observation_ids` carried by a downlink item.  An observation key is
either a target id (`Sum.inl`) or, when `target_id` is absent, the
observation's start time (`Sum.inr`), mirroring
`item.get('target_id', item['start_time'])`. -/
structure DlItem where
  type : String
  target_id : Option String
  start_time : ℚ
  end_time : ℚ
  observation_ids : List (String ⊕ ℚ)

/-- `DownlinkConstraint` from `src/spacecraft/constraints.py`; the class
fixes `violation_penalty = 10.0`. -/
structure DownlinkConstraint where
  name : String
  max_storage_time : ℚ
  constraint_type : String

/-- Insert a key into a duplicate-free list, mirroring insertion into a
Python `dict` key set or `set`. -/
def dedupInsert (s : List (String ⊕ ℚ)) (k : String ⊕ ℚ) : List (String ⊕ ℚ) :=
  if s.contains k then s else s ++ [k]

/-- `DownlinkConstraint.evaluate`: walk the schedule collecting the set of
observation keys and the set of downlinked ids, then compare their sizes.
`not_downlinked` is an integer and may be negative. -/
def DownlinkConstraint.evaluate (_c : DownlinkConstraint)
    (schedule : List DlItem) : Bool × ℚ :=
  let pair := schedule.foldl
    (fun (acc : List (String ⊕ ℚ) × List (String ⊕ ℚ)) item =>
      if item.type = "observation" then
        let key := (item.target_id.map Sum.inl).getD (Sum.inr item.start_time)
        (dedupInsert acc.1 key, acc.2)
      else if item.type = "downlink" then
        (acc.1, item.observation_ids.foldl dedupInsert acc.2)
      else acc) ([], [])
  let not_downlinked : ℤ := (pair.1.length : ℤ) - (pair.2.length : ℤ)
  if 0 < not_downlinked then (false, (not_downlinked : ℚ)) else (true, 0)

/-! ## Visibility-window scan (`src/spacecraft/planner.py`,
`compute_target_windows` / `compute_station_windows`) -/

/-- The window-detection loop shared by `compute_target_windows` and
`compute_station_windows`, abstracted over the sampled visibility signal:
`visible k` is the visibility test at sample time `k*dt` (seconds after
the epoch), `ks` the remaining sample indices, and the accumulator the
start time of the currently open window (`in_window` / `window_start`).
A window still open after the last sample is closed at `duration`. -/
def visScan (visible : ℕ → Bool) (dt duration : ℚ) :
    List ℕ → Option ℚ → List (ℚ × ℚ)
  | [], none => []
  | [], some ws => [(ws, duration)]
  | k :: rest, none =>
    if visible k then visScan visible dt duration rest (some ((k : ℚ) * dt))
    else visScan visible dt duration rest none
  | k :: rest, some ws =>
    if visible k then visScan visible dt duration rest (some ws)
    else (ws, (k : ℚ) * dt) :: visScan visible dt duration rest none

/-- The visibility-window list for one ground location: the sampling
`while current_time < end_time` loop visits exactly the sample indices
`k` with `k*dt < duration`, i.e. `List.range ⌈duration/dt⌉₊`. -/
def compute_windows (visible : ℕ → Bool) (dt duration : ℚ) : List (ℚ × ℚ) :=
  visScan visible dt duration (List.range (Nat.ceil (duration / dt))) none

/-! ## Real-valued layer: wind, flight dynamics, turn rate, slew,
orbit geometry.  These parts of the code use square roots and
trigonometry, so they are embedded over `ℝ`; branch conditions on reals
use classical decidability. -/

open scoped Classical

/-- Componentwise 3-vector sum (`numpy` array addition). -/
def add3 (a b : ℝ × ℝ × ℝ) : ℝ × ℝ × ℝ := (a.1 + b.1, a.2.1 + b.2.1, a.2.2 + b.2.2)

/-- Componentwise 3-vector difference. -/
def sub3 (a b : ℝ × ℝ × ℝ) : ℝ × ℝ × ℝ := (a.1 - b.1, a.2.1 - b.2.1, a.2.2 - b.2.2)

/-- Scalar multiple of a 3-vector. -/
def smul3 (c : ℝ) (a : ℝ × ℝ × ℝ) : ℝ × ℝ × ℝ := (c * a.1, c * a.2.1, c * a.2.2)

/-- Dot product of 3-vectors (`np.dot`). -/
def dot3 (a b : ℝ × ℝ × ℝ) : ℝ := a.1 * b.1 + a.2.1 * b.2.1 + a.2.2 * b.2.2

/-- Euclidean norm of a 3-vector (`np.linalg.norm`). -/
noncomputable def norm3 (v : ℝ × ℝ × ℝ) : ℝ :=
  Real.sqrt (v.1 ^ 2 + v.2.1 ^ 2 + v.2.2 ^ 2)

/-- `np.arctan2 y x`, realised as the argument of the complex number
`x + y i`; it agrees with `numpy` on all real inputs (range `(-π, π]`,
`atan2 0 0 = 0`). -/
noncomputable def atan2 (y x : ℝ) : ℝ := Complex.arg (x + y * Complex.I)

/-! ### Wind model (`src/aircraft/models.py`) -/

/-- `WindModel.__init__` stores the wind type string, the base wind
vector and a `RandomState(seed)` generator, modelled here by the seed it
was built from (`get_wind` never consults it). -/
structure WindModel where
  wind_type : String
  base_wind : ℝ × ℝ × ℝ
  seed : Option ℤ

/-- `WindModel.get_wind`: dispatch on the wind-type string; unknown types
fall through to the base wind.  A call is modelled state-passing style as
`(returned vector, object state after the call)`; the method body never
assigns to `self`, so the second component is the receiver itself. -/
noncomputable def WindModel.get_wind (m : WindModel) (position : ℝ × ℝ × ℝ)
    (time : ℝ) : (ℝ × ℝ × ℝ) × WindModel :=
  if m.wind_type = "constant" then (m.base_wind, m)
  else if m.wind_type = "spatial" then
    (add3 m.base_wind
      (0.1 * Real.sin (position.1 / 1000), 0.1 * Real.cos (position.2.1 / 1000), 0), m)
  else if m.wind_type = "temporal" then
    (add3 m.base_wind
      (0.2 * Real.sin (time / 100), 0.2 * Real.cos (time / 100), 0), m)
  else (m.base_wind, m)

/-! ### Flight dynamics (`src/aircraft/models.py`) -/

/-- `AircraftParams` (defaults omitted; constructions pass all fields). -/
structure AircraftParams where
  max_speed : ℝ
  min_speed : ℝ
  max_climb_rate : ℝ
  max_descent_rate : ℝ
  max_bank_angle : ℝ
  max_turn_rate : ℝ
  mass : ℝ
  drag_coefficient : ℝ
  power_consumption_base : ℝ
  battery_capacity : ℝ

/-- `AircraftState` from `src/aircraft/models.py`. -/
structure AircraftState where
  time : ℝ
  position : ℝ × ℝ × ℝ
  velocity : ℝ × ℝ × ℝ
  heading : ℝ
  energy_remaining : ℝ

/-- `FlightDynamics.compute_energy_rate`: base power plus the drag term
`0.5 * drag_coefficient * speed**3` computed from the state's own
velocity, plus `mass * 9.81 * vz` when climbing (`vz > 0`). -/
noncomputable def compute_energy_rate (params : AircraftParams)
    (state : AircraftState) : ℝ :=
  let speed := norm3 state.velocity
  let power := params.power_consumption_base +
    0.5 * params.drag_coefficient * speed ^ 3
  if 0 < state.velocity.2.2 then power + params.mass * 9.81 * state.velocity.2.2
  else power

/-- `FlightDynamics.propagate`: ground velocity is commanded airspeed plus
wind at the current position/time; Euler position update; heading from
`arctan2` when the horizontal ground speed exceeds `0.1`; energy decreases
by `compute_energy_rate(state) * dt` (the rate of the pre-step state). -/
noncomputable def propagate (params : AircraftParams) (wind_model : WindModel)
    (state : AircraftState) (control_velocity : ℝ × ℝ × ℝ) (dt : ℝ) :
    AircraftState :=
  let wind := (wind_model.get_wind state.position state.time).1
  let ground_velocity := add3 control_velocity wind
  let new_position := add3 state.position (smul3 dt ground_velocity)
  let new_heading :=
    if 0.1 < Real.sqrt (ground_velocity.1 ^ 2 + ground_velocity.2.1 ^ 2) then
      atan2 ground_velocity.2.1 ground_velocity.1
    else state.heading
  let power := compute_energy_rate params state
  { time := state.time + dt
    position := new_position
    velocity := ground_velocity
    heading := new_heading
    energy_remaining := state.energy_remaining - power * dt }

/-! ### Turn-rate constraint (`src/aircraft/constraints.py`) -/

/-- `TurnRateConstraint` configuration. -/
structure TurnRateConstraint where
  name : String
  max_turn_rate : ℝ
  cruise_speed : ℝ
  constraint_type : String

/-- The `for i in range(len(path) - 2)` loop of
`TurnRateConstraint.evaluate`, with `i` the current index (used for the
`times` lookup).  Each step computes the two consecutive segment vectors
(of the waypoints' first two coordinates), skips the triple when either
segment is shorter than `1e-6`, otherwise takes the clipped-cosine angle
between segments, the available time (from `times` when present, else
`|v1| / cruise_speed`), and accumulates the excess of the required turn
rate over the limit.  Accumulation by `max` is order-insensitive, so the
running maximum is folded from the right. -/
noncomputable def turnRateViolation (c : TurnRateConstraint) (times : List ℝ) :
    ℕ → List (ℝ × ℝ) → ℝ
  | _, [] => 0
  | _, [_] => 0
  | _, [_, _] => 0
  | i, p0 :: p1 :: p2 :: rest =>
    let v1 : ℝ × ℝ := (p1.1 - p0.1, p1.2 - p0.2)
    let v2 : ℝ × ℝ := (p2.1 - p1.1, p2.2 - p1.2)
    let n1 := Real.sqrt (v1.1 ^ 2 + v1.2 ^ 2)
    let n2 := Real.sqrt (v2.1 ^ 2 + v2.2 ^ 2)
    let rest_violation := turnRateViolation c times (i + 1) (p1 :: p2 :: rest)
    if n1 < 1e-6 ∨ n2 < 1e-6 then rest_violation
    else
      let cos_angle := min (max ((v1.1 * v2.1 + v1.2 * v2.2) / (n1 * n2)) (-1)) 1
      let turn_angle := Real.arccos cos_angle
      let time_available :=
        if times ≠ [] ∧ i + 1 < times.length then times.getD (i + 1) 0 - times.getD i 0
        else n1 / c.cruise_speed
      let required := turn_angle / max time_available 0.1
      if c.max_turn_rate < required then max rest_violation (required - c.max_turn_rate)
      else rest_violation

/-- `TurnRateConstraint.evaluate`: `(True, 0.0)` for paths shorter than
two waypoints, else `(max_violation == 0.0, max_violation)`. -/
noncomputable def TurnRateConstraint.evaluate (c : TurnRateConstraint)
    (path : List (ℝ × ℝ)) (times : List ℝ) : Bool × ℝ :=
  if path.length < 2 then (true, 0)
  else
    let mv := turnRateViolation c times 0 path
    (if mv = 0 then true else false, mv)

/-! ### Pointing/slew constraint (`src/spacecraft/constraints.py`) -/

/-- A schedule item as read by `PointingSlewConstraint.evaluate`: the
`type` tag, the optional `target_position` unit vector, and start/end
times in seconds (the code subtracts two datetimes and takes
`total_seconds()`). -/
structure SlewScheduleItem where
  type : String
  target_position : Option (ℝ × ℝ × ℝ)
  start_time : ℝ
  end_time : ℝ

/-- `PointingSlewConstraint` configuration. -/
structure PointingSlewConstraint where
  name : String
  max_slew_rate : ℝ
  constraint_type : String

/-- The pair loop of `PointingSlewConstraint.evaluate`: for each adjacent
pair of observation items, the slew angle in degrees between the two
(clipped-cosine) target vectors divided by the positive gap between the
first item's end and the second item's start, accumulating the excess
over the maximum slew rate. -/
noncomputable def slewViolation (c : PointingSlewConstraint) :
    List SlewScheduleItem → ℝ
  | [] => 0
  | [_] => 0
  | a :: b :: rest =>
    let rest_violation := slewViolation c (b :: rest)
    if a.type = "observation" ∧ b.type = "observation" then
      let pos1 := a.target_position.getD (0, 0, 1)
      let pos2 := b.target_position.getD (0, 0, 1)
      let slew_angle := Real.arccos (min (max (dot3 pos1 pos2) (-1)) 1)
      let slew_angle_deg := slew_angle * (180 / Real.pi)
      let time_available := b.start_time - a.end_time
      if 0 < time_available then
        let required := slew_angle_deg / time_available
        if c.max_slew_rate < required then max rest_violation (required - c.max_slew_rate)
        else rest_violation
      else rest_violation
    else rest_violation

/-- `PointingSlewConstraint.evaluate`: `(True, 0.0)` for schedules shorter
than two items, else `(max_violation == 0.0, max_violation)`. -/
noncomputable def PointingSlewConstraint.evaluate (c : PointingSlewConstraint)
    (schedule : List SlewScheduleItem) : Bool × ℝ :=
  if schedule.length < 2 then (true, 0)
  else
    let mv := slewViolation c schedule
    (if mv = 0 then true else false, mv)

/-! ### Orbit geometry (`src/spacecraft/orbit.py`) -/

/-- `VisibilityCalculator.lla_to_ecef`: spherical Earth of radius
`EARTH_RADIUS = 6371` km; `np.radians` converts degrees to radians. -/
noncomputable def lla_to_ecef (lat_deg lon_deg alt_km : ℝ) : ℝ × ℝ × ℝ :=
  let lat := lat_deg * (Real.pi / 180)
  let lon := lon_deg * (Real.pi / 180)
  let r := 6371 + alt_km
  (r * Real.cos lat * Real.cos lon, r * Real.cos lat * Real.sin lon, r * Real.sin lat)

/-- `VisibilityCalculator.ecef_to_lla`: longitude `arctan2(y, x)`,
latitude `arctan2(z, sqrt(x²+y²))`, altitude `|r| - EARTH_RADIUS`,
angles returned in degrees (`np.degrees`). -/
noncomputable def ecef_to_lla (r_ecef : ℝ × ℝ × ℝ) : ℝ × ℝ × ℝ :=
  let lon := atan2 r_ecef.2.1 r_ecef.1
  let lat := atan2 r_ecef.2.2 (Real.sqrt (r_ecef.1 ^ 2 + r_ecef.2.1 ^ 2))
  (lat * (180 / Real.pi), lon * (180 / Real.pi), norm3 r_ecef - 6371)

/-- `VisibilityCalculator.compute_elevation_angle`: the local vertical is
the normalised ground position; when the slant range is below `1e-6` km
the code returns `90.0` directly, otherwise `degrees(arcsin(...))` of the
clipped normalised dot product. -/
noncomputable def compute_elevation_angle (sc_pos_ecef ground_pos_ecef : ℝ × ℝ × ℝ) : ℝ :=
  let range_vec := sub3 sc_pos_ecef ground_pos_ecef
  let local_vertical := smul3 (1 / norm3 ground_pos_ecef) ground_pos_ecef
  let range_mag := norm3 range_vec
  if range_mag < 1e-6 then 90
  else
    let sin_el := min (max (dot3 range_vec local_vertical / range_mag) (-1)) 1
    Real.arcsin sin_el * (180 / Real.pi)

/-! ### Predicates used to state the turn-rate claims -/

/-- Three waypoints on one line: the two segment vectors have zero cross
product. -/
def Collinear3 (p q r : ℝ × ℝ) : Prop :=
  (q.1 - p.1) * (r.2 - p.2) = (q.2 - p.2) * (r.1 - p.1)

/-- Every pair of consecutive path segments is forward-parallel: zero
cross product and nonnegative dot product (no direction reversal). -/
def ForwardPath : List (ℝ × ℝ) → Prop
  | p0 :: p1 :: p2 :: rest =>
    ((p1.1 - p0.1) * (p2.2 - p1.2) - (p1.2 - p0.2) * (p2.1 - p1.1) = 0 ∧
      0 ≤ (p1.1 - p0.1) * (p2.1 - p1.1) + (p1.2 - p0.2) * (p2.2 - p1.2)) ∧
    ForwardPath (p1 :: p2 :: rest)
  | _ => True

/-! ## Theorems -/

theorem violationList_nil {σ : Type} (s : σ) : violationList ([] : List (PlannerConstraint σ)) s = [] := rfl

theorem violationList_cons {σ : Type} (c : PlannerConstraint σ)
    (cs : List (PlannerConstraint σ)) (s : σ) :
    violationList (c :: cs) s =
      if c.constraint_type = "hard" then
        if (c.evaluate s).1 then violationList cs s else c.name :: violationList cs s
      else violationList cs s := rfl

theorem violationList_eq_nil_iff {σ : Type} (cs : List (PlannerConstraint σ)) (s : σ) :
    violationList cs s = [] ↔
      ∀ c ∈ cs, c.constraint_type = "hard" → (c.evaluate s).1 = true := by
  induction cs with
  | nil => simp [violationList_nil]
  | cons c cs ih =>
    rw [violationList_cons]
    by_cases hty : c.constraint_type = "hard"
    · by_cases hev : (c.evaluate s).1 = true
      · simp [hty, hev, ih]
      · simp [hty, hev]
    · simp [hty, ih]

theorem compute_penalty_foldl {σ : Type} (cs : List (PlannerConstraint σ)) (s : σ) :
    ∀ acc : ℚ,
      cs.foldl
        (fun total c =>
          if c.constraint_type = "soft" then
            if (c.evaluate s).1 then total
            else total + c.violation_penalty.getD 1 * (c.evaluate s).2
          else total) acc =
      acc + ((cs.filter (fun c =>
          decide (c.constraint_type = "soft") && !(c.evaluate s).1)).map
        (fun c => c.violation_penalty.getD 1 * (c.evaluate s).2)).sum := by
  induction cs with
  | nil => intro acc; simp
  | cons c cs ih =>
    intro acc
    by_cases hty : c.constraint_type = "soft"
    · by_cases hev : (c.evaluate s).1 = true
      · simp [List.foldl_cons, List.filter_cons, hty, hev, ih]
      · simp only [Bool.not_eq_true] at hev
        simp [List.foldl_cons, List.filter_cons, hty, hev, ih]
        ring
    · simp [List.foldl_cons, List.filter_cons, hty, ih]

/-- C2.  `validate_solution` returns `allSatisfied = false` iff some hard
constraint evaluates as violated on the state; soft constraints never make
it fail (only hard constraints are consulted); and
`ConstraintValidator.compute_penalty` is the sum over violated soft
constraints of the penalty weight (the `violation_penalty` attribute,
defaulting to `1.0` when absent) times the violation magnitude. -/
theorem validate_solution_penalty_spec {σ : Type}
    (cs : List (PlannerConstraint σ)) (s : σ) :
    ((validate_solution cs s).1 = false ↔
      ∃ c ∈ cs, c.constraint_type = "hard" ∧ (c.evaluate s).1 = false) ∧
    compute_penalty cs s =
      ((cs.filter (fun c =>
          decide (c.constraint_type = "soft") && !(c.evaluate s).1)).map
        (fun c => c.violation_penalty.getD 1 * (c.evaluate s).2)).sum := by
  constructor
  · unfold validate_solution
    rw [Bool.eq_false_iff]
    simp only [ne_eq, List.isEmpty_iff]
    rw [violationList_eq_nil_iff]
    push_neg
    constructor
    · rintro ⟨c, hc, hhard, hev⟩
      exact ⟨c, hc, hhard, by simpa using hev⟩
    · rintro ⟨c, hc, hhard, hev⟩
      exact ⟨c, hc, hhard, by simp [hev]⟩
  · unfold compute_penalty
    simpa using compute_penalty_foldl cs s 0

/-- C3 counterexample.  A `NumericConstraint` with lower bound `5` applied
to a state in which the named variable is absent substitutes the default
`0.0`, which violates the lower bound: `evaluate` returns `(False, 5.0)`,
not the `(True, 0.0)` the claim asserts for absent variables. -/
theorem numeric_missing_variable_counterexample :
    NumericConstraint.evaluate ⟨"c", "x", some 5, some 10, "hard"⟩ (fun _ => none) =
      (false, 5) ∧ ((false, (5 : ℚ)) ≠ ((true, 0) : Bool × ℚ)) := by
  refine ⟨?_, by simp⟩
  norm_num [NumericConstraint.evaluate, belowLower, aboveUpper]

/-- C3 (amended).  Constraint evaluation is total by construction, and an
empty or absent relevant field yields `(True, 0.0)` for the path-based and
schedule-based constraints (`AircraftGeofenceConstraint` on an empty path,
`DownlinkConstraint` on an empty schedule); for `NumericConstraint` an
absent variable is replaced by the default `0.0`, so the result is
`(True, 0.0)` exactly when `0` violates neither bound. -/
theorem empty_state_no_violation :
    (∀ c : AircraftGeofenceConstraint, c.evaluate [] = (true, 0)) ∧
    (∀ c : DownlinkConstraint, c.evaluate [] = (true, 0)) ∧
    (∀ (c : NumericConstraint) (st : String → Option ℚ),
      st c.variable_name = none →
      belowLower c.lower_bound 0 = false →
      aboveUpper c.upper_bound 0 = false →
      c.evaluate st = (true, 0)) := by
  refine ⟨fun c => rfl, fun c => rfl, fun c st hst hl hu => ?_⟩
  simp only [NumericConstraint.evaluate]
  rw [hst]
  simp [hl, hu]

/-- Witness for C3 (amended): a concrete numeric constraint whose bounds
contain `0`, on a state with the variable absent. -/
theorem empty_state_no_violation_witness :
    NumericConstraint.evaluate ⟨"c", "x", some (-1), some 5, "hard"⟩ (fun _ => none) =
      (true, 0) :=
  empty_state_no_violation.2.2 ⟨"c", "x", some (-1), some 5, "hard"⟩
    (fun _ => none) rfl (by norm_num [belowLower]) (by norm_num [aboveUpper])

/-- C6.  When the remaining reserve `initial_energy - total_energy` equals
`min_reserve` exactly, `EnergyConstraint.evaluate` returns `(True, 0.0)`:
the boundary comparison `energy_remaining < min_reserve` is strict, so
equality is not a violation. -/
theorem energy_boundary_non_strict (c : EnergyConstraint) (total_energy : Option ℚ)
    (h : c.initial_energy - total_energy.getD 0 = c.min_reserve) :
    c.evaluate total_energy = (true, 0) := by
  simp only [EnergyConstraint.evaluate]
  rw [h]
  simp

/-- Witness for C6: initial energy `100`, consumed `60`, reserve `40`. -/
theorem energy_boundary_non_strict_witness :
    EnergyConstraint.evaluate ⟨"energy", 100, 40, "hard"⟩ (some 60) = (true, 0) :=
  energy_boundary_non_strict ⟨"energy", 100, 40, "hard"⟩ (some 60)
    (by norm_num [Option.getD_some])

/-- C9.  `WindModel.get_wind` is deterministic and side-effect free: two
models constructed from the same wind type, base wind and seed return the
same vector at the same position and time, and a call leaves the model's
observable state unchanged (the method only reads `wind_type` and
`base_wind`; the stored generator is never consulted). -/
theorem get_wind_deterministic_pure (m₁ m₂ : WindModel) (p : ℝ × ℝ × ℝ) (t : ℝ)
    (hty : m₁.wind_type = m₂.wind_type) (hb : m₁.base_wind = m₂.base_wind)
    (hs : m₁.seed = m₂.seed) :
    (m₁.get_wind p t).1 = (m₂.get_wind p t).1 ∧ (m₁.get_wind p t).2 = m₁ := by
  obtain ⟨ty₁, b₁, s₁⟩ := m₁
  obtain ⟨ty₂, b₂, s₂⟩ := m₂
  simp only [WindModel.mk.injEq] at hty hb hs ⊢
  subst hty; subst hb; subst hs
  refine ⟨rfl, ?_⟩
  unfold WindModel.get_wind
  split_ifs <;> rfl

/-- Witness for C9: a constant wind model with seed `42`. -/
theorem get_wind_deterministic_pure_witness :
    ((⟨"constant", (1, 2, 3), some 42⟩ : WindModel).get_wind (4, 5, 6) 7).1 =
      ((⟨"constant", (1, 2, 3), some 42⟩ : WindModel).get_wind (4, 5, 6) 7).1 ∧
    ((⟨"constant", (1, 2, 3), some 42⟩ : WindModel).get_wind (4, 5, 6) 7).2 =
      (⟨"constant", (1, 2, 3), some 42⟩ : WindModel) :=
  get_wind_deterministic_pure _ _ _ _ rfl rfl rfl

theorem visScan_spec (visible : ℕ → Bool) (dt duration : ℚ) (hdt : 0 < dt) :
    ∀ (ks : List ℕ) (acc : Option ℚ) (lb : ℚ),
      (∀ k ∈ ks, (k : ℚ) * dt < duration) →
      ks.Pairwise (· < ·) →
      (∀ k ∈ ks, lb ≤ (k : ℚ) * dt) →
      (∀ ws, acc = some ws → lb ≤ ws ∧ ws < duration ∧ ∀ k ∈ ks, ws < (k : ℚ) * dt) →
      (∀ w ∈ visScan visible dt duration ks acc,
          lb ≤ w.1 ∧ w.1 < w.2 ∧ w.2 ≤ duration) ∧
      (visScan visible dt duration ks acc).Chain' (fun a b => a.2 < b.1) := by
  intro ks
  induction ks with
  | nil =>
    intro acc lb _ _ _ hacc
    match acc with
    | none => simp [visScan]
    | some ws =>
      obtain ⟨h1, h2, _⟩ := hacc ws rfl
      refine ⟨?_, by simp [visScan]⟩
      intro w hw
      simp only [visScan, List.mem_singleton] at hw
      subst hw
      exact ⟨h1, h2, le_refl _⟩
  | cons k rest ih =>
    intro acc lb hbound hpw hlb hacc
    have hbound' : ∀ k' ∈ rest, (k' : ℚ) * dt < duration :=
      fun k' hk' => hbound k' (List.mem_cons_of_mem _ hk')
    have hpw' : rest.Pairwise (· < ·) := hpw.of_cons
    have hlb' : ∀ k' ∈ rest, lb ≤ (k' : ℚ) * dt :=
      fun k' hk' => hlb k' (List.mem_cons_of_mem _ hk')
    have hrest_gt : ∀ k' ∈ rest, (k : ℚ) * dt < (k' : ℚ) * dt := by
      intro k' hk'
      have hkk' : k < k' := List.rel_of_pairwise_cons hpw hk'
      exact mul_lt_mul_of_pos_right (by exact_mod_cast hkk') hdt
    match acc with
    | none =>
      by_cases hv : visible k
      · rw [show visScan visible dt duration (k :: rest) none =
            visScan visible dt duration rest (some ((k : ℚ) * dt)) by
          simp [visScan, hv]]
        exact ih (some ((k : ℚ) * dt)) lb hbound' hpw' hlb'
          (fun ws hws => by
            cases hws
            exact ⟨hlb k (List.mem_cons_self _ _), hbound k (List.mem_cons_self _ _), hrest_gt⟩)
      · rw [show visScan visible dt duration (k :: rest) none =
            visScan visible dt duration rest none by simp [visScan, hv]]
        exact ih none lb hbound' hpw' hlb' (fun ws hws => by cases hws)
    | some ws =>
      obtain ⟨h1, h2, h3⟩ := hacc ws rfl
      by_cases hv : visible k
      · rw [show visScan visible dt duration (k :: rest) (some ws) =
            visScan visible dt duration rest (some ws) by simp [visScan, hv]]
        exact ih (some ws) lb hbound' hpw' hlb'
          (fun ws' hws' => by
            cases hws'
            exact ⟨h1, h2, fun k' hk' => h3 k' (List.mem_cons_of_mem _ hk')⟩)
      · rw [show visScan visible dt duration (k :: rest) (some ws) =
            (ws, (k : ℚ) * dt) :: visScan visible dt duration rest none by
          simp [visScan, hv]]
        have hkk1 : (k : ℚ) * dt < ((k : ℚ) + 1) * dt :=
          mul_lt_mul_of_pos_right (by linarith) hdt
        have htail := ih none (((k : ℚ) + 1) * dt) hbound' hpw'
          (fun k' hk' => by
            have hkk' : k < k' := List.rel_of_pairwise_cons hpw hk'
            have : (k : ℚ) + 1 ≤ (k' : ℚ) := by exact_mod_cast hkk'
            exact mul_le_mul_of_nonneg_right this hdt.le)
          (fun ws' hws' => by cases hws')
        constructor
        · intro w hw
          rcases List.mem_cons.1 hw with hw | hw
          · subst hw
            exact ⟨h1, h3 k (List.mem_cons_self _ _),
              (hbound k (List.mem_cons_self _ _)).le⟩
          · obtain ⟨ha, hb, hc⟩ := htail.1 w hw
            refine ⟨?_, hb, hc⟩
            calc lb ≤ (k : ℚ) * dt := hlb k (List.mem_cons_self _ _)
              _ ≤ ((k : ℚ) + 1) * dt := hkk1.le
              _ ≤ w.1 := ha
        · refine List.chain'_cons'.2 ⟨?_, htail.2⟩
          intro y hy
          have hy' : y ∈ visScan visible dt duration rest none :=
            List.mem_of_mem_head? hy
          have := (htail.1 y hy').1
          calc (k : ℚ) * dt < ((k : ℚ) + 1) * dt := hkk1
            _ ≤ y.1 := this

/-- C7.  The visibility-window list produced by the sampling loop of
`compute_target_windows` / `compute_station_windows` (for any ground
target or station, i.e. any sampled visibility signal) satisfies: every
window's start is strictly before its end, every window ends no later
than the mission horizon (an open window is closed exactly at the
horizon, which the last clause of `visScan` realises), and consecutive
windows are strictly separated, hence sorted by start time and pairwise
non-overlapping. -/
theorem compute_windows_invariant (visible : ℕ → Bool) (dt duration : ℚ)
    (hdt : 0 < dt) :
    (∀ w ∈ compute_windows visible dt duration, w.1 < w.2 ∧ w.2 ≤ duration) ∧
    (compute_windows visible dt duration).Chain' (fun a b => a.2 < b.1) := by
  have h := visScan_spec visible dt duration hdt
    (List.range (Nat.ceil (duration / dt))) none 0
    (by
      intro k hk
      rw [List.mem_range] at hk
      have : (k : ℚ) < duration / dt := Nat.lt_ceil.1 hk
      exact (lt_div_iff₀ hdt).1 this)
    (List.pairwise_lt_range _)
    (fun k _ => mul_nonneg (Nat.cast_nonneg k) hdt.le)
    (fun ws hws => by cases hws)
  exact ⟨fun w hw => (h.1 w hw).2, h.2⟩

/-- Witness for C7: sampling at `dt = 60` over a `150`-second horizon with
visibility only at the second sample produces windows satisfying the
invariant. -/
theorem compute_windows_invariant_witness :
    (0 : ℚ) < 60 ∧
    ((∀ w ∈ compute_windows (fun k => decide (k = 1)) 60 150,
        w.1 < w.2 ∧ w.2 ≤ 150) ∧
      (compute_windows (fun k => decide (k = 1)) 60 150).Chain'
        (fun a b => a.2 < b.1)) :=
  ⟨by norm_num,
    compute_windows_invariant (fun k => decide (k = 1)) 60 150 (by norm_num)⟩

/-- C1 counterexample.  With the default aircraft parameters, a zero
constant wind and commanded velocity `(7, 0, 0)`, a state whose own
velocity is `(10, 0, 0)` loses `(100 + 0.5·0.3·10³)·dt = 250` J over
`dt = 1`, not `basePower·dt = 100` J: `compute_energy_rate` computes the
drag term from the pre-step state velocity, which is not zero for a
moving aircraft, so the energy clause of the claim fails. -/
theorem propagate_energy_counterexample :
    (propagate ⟨25, 10, 3, 5, Real.pi / 4, Real.pi / 6, 5, 0.3, 100, 1800000⟩
        ⟨"constant", (0, 0, 0), none⟩
        ⟨0, (0, 0, 0), (10, 0, 0), 0, 1000⟩ (7, 0, 0) 1).energy_remaining ≠
      1000 - 100 * 1 := by
  have hs : norm3 ((10 : ℝ), 0, 0) = 10 := by
    show Real.sqrt ((10 : ℝ) ^ 2 + 0 ^ 2 + 0 ^ 2) = 10
    rw [show (10 : ℝ) ^ 2 + 0 ^ 2 + 0 ^ 2 = 10 ^ 2 by norm_num]
    exact Real.sqrt_sq (by norm_num)
  simp only [propagate, compute_energy_rate]
  rw [hs]
  norm_num

/-- C1 (amended).  For zero wind and commanded velocity `(v, 0, 0)`,
`propagate` advances `position.x` by exactly `v·dt` for every state; the
energy decrease equals `basePower·dt` when, in addition, the state's own
(pre-step) velocity is the zero vector, which is what makes the drag and
climb terms of `compute_energy_rate` vanish. -/
theorem propagate_zero_wind_zero_velocity (params : AircraftParams)
    (wm : WindModel) (state : AircraftState) (v dt : ℝ)
    (hw : ∀ (p : ℝ × ℝ × ℝ) (t : ℝ), (wm.get_wind p t).1 = (0, 0, 0)) :
    (propagate params wm state (v, 0, 0) dt).position.1 = state.position.1 + v * dt ∧
    (state.velocity = (0, 0, 0) →
      (propagate params wm state (v, 0, 0) dt).energy_remaining =
        state.energy_remaining - params.power_consumption_base * dt) := by
  constructor
  · simp only [propagate, hw]
    simp [add3, smul3]
    ring
  · intro hv
    have h0 : norm3 ((0 : ℝ), 0, 0) = 0 := by
      show Real.sqrt ((0 : ℝ) ^ 2 + 0 ^ 2 + 0 ^ 2) = 0
      rw [show (0 : ℝ) ^ 2 + 0 ^ 2 + 0 ^ 2 = 0 by norm_num]
      exact Real.sqrt_zero
    have hrate : compute_energy_rate params state = params.power_consumption_base := by
      simp only [compute_energy_rate, hv]
      rw [h0]
      norm_num
    simp only [propagate, hrate]

/-- Witness for C1 (amended): default-like parameters, a constant zero
wind model, a resting state, commanded `(5, 0, 0)` over `dt = 2`. -/
theorem propagate_zero_wind_zero_velocity_witness :
    (propagate ⟨25, 10, 3, 5, Real.pi / 4, Real.pi / 6, 5, 0.3, 100, 1800000⟩
        ⟨"constant", (0, 0, 0), none⟩
        ⟨0, (0, 0, 0), (0, 0, 0), 0, 1000⟩ (5, 0, 0) 2).position.1 =
      (0 : ℝ) + 5 * 2 ∧
    ((⟨0, (0, 0, 0), (0, 0, 0), 0, 1000⟩ : AircraftState).velocity = (0, 0, 0) →
      (propagate ⟨25, 10, 3, 5, Real.pi / 4, Real.pi / 6, 5, 0.3, 100, 1800000⟩
          ⟨"constant", (0, 0, 0), none⟩
          ⟨0, (0, 0, 0), (0, 0, 0), 0, 1000⟩ (5, 0, 0) 2).energy_remaining =
        (1000 : ℝ) - 100 * 2) :=
  propagate_zero_wind_zero_velocity _ _ _ 5 2 (fun _ _ => rfl)

theorem turnRateViolation_nonneg (c : TurnRateConstraint) (times : List ℝ) :
    ∀ (i : ℕ) (path : List (ℝ × ℝ)), 0 ≤ turnRateViolation c times i path := by
  intro i path
  induction path generalizing i with
  | nil => simp [turnRateViolation]
  | cons p0 rest ih =>
    match rest with
    | [] => simp [turnRateViolation]
    | [p1] => simp [turnRateViolation]
    | p1 :: p2 :: rest2 =>
      simp only [turnRateViolation]
      split_ifs
      all_goals
        first
        | exact ih (i + 1)
        | exact le_trans (ih (i + 1)) (le_max_left _ _)

theorem slewViolation_nonneg (c : PointingSlewConstraint) :
    ∀ schedule : List SlewScheduleItem, 0 ≤ slewViolation c schedule := by
  intro schedule
  induction schedule with
  | nil => simp [slewViolation]
  | cons a rest ih =>
    match rest with
    | [] => simp [slewViolation]
    | b :: rest2 =>
      simp only [slewViolation]
      split_ifs
      all_goals
        first
        | exact ih
        | exact le_trans ih (le_max_left _ _)

/-- C4.  For the concrete constraint implementations `TurnRateConstraint`,
the core `GeofenceConstraint` and `PointingSlewConstraint`, `evaluate`
always returns a pair with nonnegative violation magnitude, and the
magnitude is zero exactly when the satisfied flag is true. -/
theorem evaluate_invariants :
    (∀ (c : TurnRateConstraint) (path : List (ℝ × ℝ)) (times : List ℝ),
        0 ≤ (c.evaluate path times).2 ∧
        ((c.evaluate path times).1 = true ↔ (c.evaluate path times).2 = 0)) ∧
    (∀ (c : GeofenceConstraint) (position : Option (ℚ × ℚ)),
        0 ≤ (c.evaluate position).2 ∧
        ((c.evaluate position).1 = true ↔ (c.evaluate position).2 = 0)) ∧
    (∀ (c : PointingSlewConstraint) (schedule : List SlewScheduleItem),
        0 ≤ (c.evaluate schedule).2 ∧
        ((c.evaluate schedule).1 = true ↔ (c.evaluate schedule).2 = 0)) := by
  refine ⟨fun c path times => ?_, fun c position => ?_, fun c schedule => ?_⟩
  · simp only [TurnRateConstraint.evaluate]
    split_ifs with h1 h2
    · simp
    · simp [h2]
    · simpa [h2] using turnRateViolation_nonneg c times 0 path
  · match position with
    | none => simp [GeofenceConstraint.evaluate]
    | some p =>
      simp only [GeofenceConstraint.evaluate]
      split_ifs
      · norm_num
      · simp
  · simp only [PointingSlewConstraint.evaluate]
    split_ifs with h1 h2
    · simp
    · simp [h2]
    · simpa [h2] using slewViolation_nonneg c schedule

theorem turnRateViolation_forward (c : TurnRateConstraint) (times : List ℝ)
    (hrate : 0 ≤ c.max_turn_rate) :
    ∀ (i : ℕ) (path : List (ℝ × ℝ)), ForwardPath path →
      turnRateViolation c times i path = 0 := by
  intro i path
  induction path generalizing i with
  | nil => intro _; simp [turnRateViolation]
  | cons p0 rest ih =>
    match rest with
    | [] => intro _; simp [turnRateViolation]
    | [p1] => intro _; simp [turnRateViolation]
    | p1 :: p2 :: rest2 =>
      intro hf
      simp only [ForwardPath] at hf
      obtain ⟨⟨hcross, hdot⟩, hrest⟩ := hf
      have hrec := ih (i + 1) hrest
      simp only [turnRateViolation]
      by_cases hskip :
          Real.sqrt ((p1.1 - p0.1) ^ 2 + (p1.2 - p0.2) ^ 2) < 1e-6 ∨
          Real.sqrt ((p2.1 - p1.1) ^ 2 + (p2.2 - p1.2) ^ 2) < 1e-6
      · rw [if_pos hskip]; exact hrec
      · rw [if_neg hskip]
        push_neg at hskip
        have hn1 : (0 : ℝ) < Real.sqrt ((p1.1 - p0.1) ^ 2 + (p1.2 - p0.2) ^ 2) :=
          lt_of_lt_of_le (by norm_num) hskip.1
        have hn2 : (0 : ℝ) < Real.sqrt ((p2.1 - p1.1) ^ 2 + (p2.2 - p1.2) ^ 2) :=
          lt_of_lt_of_le (by norm_num) hskip.2
        have hsq :
            ((p1.1 - p0.1) * (p2.1 - p1.1) + (p1.2 - p0.2) * (p2.2 - p1.2)) ^ 2 =
              ((p1.1 - p0.1) ^ 2 + (p1.2 - p0.2) ^ 2) *
              ((p2.1 - p1.1) ^ 2 + (p2.2 - p1.2) ^ 2) := by
          have := hcross
          nlinarith [this]
        have hprod :
            Real.sqrt ((p1.1 - p0.1) ^ 2 + (p1.2 - p0.2) ^ 2) *
              Real.sqrt ((p2.1 - p1.1) ^ 2 + (p2.2 - p1.2) ^ 2) =
            (p1.1 - p0.1) * (p2.1 - p1.1) + (p1.2 - p0.2) * (p2.2 - p1.2) := by
          rw [← Real.sqrt_mul (by positivity), ← hsq, Real.sqrt_sq hdot]
        have hdotpos :
            (0 : ℝ) < (p1.1 - p0.1) * (p2.1 - p1.1) + (p1.2 - p0.2) * (p2.2 - p1.2) :=
          hprod ▸ mul_pos hn1 hn2
        have hcos :
            min (max (((p1.1 - p0.1) * (p2.1 - p1.1) + (p1.2 - p0.2) * (p2.2 - p1.2)) /
              (Real.sqrt ((p1.1 - p0.1) ^ 2 + (p1.2 - p0.2) ^ 2) *
                Real.sqrt ((p2.1 - p1.1) ^ 2 + (p2.2 - p1.2) ^ 2))) (-1)) 1 = 1 := by
          rw [hprod, div_self hdotpos.ne']
          rw [max_eq_left (by norm_num : (-1 : ℝ) ≤ 1), min_self]
        rw [hcos, Real.arccos_one, zero_div, if_neg (not_lt.2 hrate)]
        exact hrec

/-- C5 (amended).  `TurnRateConstraint.evaluate` returns `(True, 0.0)` for
every nonnegative configured maximum turn rate and every path in which
each pair of consecutive segments is *forward*-parallel (zero cross
product and nonnegative dot product), independent of the cruise speed and
the times list.  The original claim over all collinear paths fails: a
collinear path that reverses direction requires a 180° turn (see the
counterexample). -/
theorem turn_rate_forward_collinear (c : TurnRateConstraint)
    (path : List (ℝ × ℝ)) (times : List ℝ)
    (hrate : 0 ≤ c.max_turn_rate) (hf : ForwardPath path) :
    c.evaluate path times = (true, 0) := by
  simp only [TurnRateConstraint.evaluate]
  split_ifs with h1 h2
  · rfl
  · simp [h2]
  · exact absurd (turnRateViolation_forward c times hrate 0 path hf) h2

/-- Witness for C5 (amended): a straight eastbound three-waypoint path. -/
theorem turn_rate_forward_collinear_witness :
    TurnRateConstraint.evaluate ⟨"turn_rate", 1, 10, "hard"⟩
      [((0 : ℝ), (0 : ℝ)), (1, 0), (2, 0)] [] = (true, 0) :=
  turn_rate_forward_collinear ⟨"turn_rate", 1, 10, "hard"⟩ _ _ (by norm_num)
    (by norm_num [ForwardPath])

/-- C5 counterexample.  The waypoints `(0,0), (1,0), (0,0)` are collinear
but the path reverses direction, so the angle between consecutive segments
is 180°; with cruise speed `10` the estimated time for the turn is `0.1` s
and the required turn rate `10π` rad/s exceeds the configured maximum `1`,
so `evaluate` reports a violation — refuting the claim that collinearity
alone guarantees `(True, 0.0)`. -/
theorem turn_rate_collinear_counterexample :
    Collinear3 (0, 0) (1, 0) (0, 0) ∧
    (TurnRateConstraint.evaluate ⟨"turn_rate", 1, 10, "hard"⟩
      [((0 : ℝ), (0 : ℝ)), (1, 0), (0, 0)] []).1 = false := by
  constructor
  · norm_num [Collinear3]
  · simp only [TurnRateConstraint.evaluate, turnRateViolation]
    norm_num [Real.arccos_neg_one, Real.sqrt_one]
    rw [lt_div_iff₀ (by norm_num : (0 : ℝ) < 1 / 10)]
    nlinarith [Real.pi_gt_three]

/-- C10.  For a nonzero ground position, `compute_elevation_angle` always
returns a value in `[-90, 90]` degrees: the sine argument is clipped to
`[-1, 1]` before `arcsin`, so no domain error (NaN) can occur; and when
the spacecraft position coincides with the ground position to within
`1e-6` km the function returns exactly `90`. -/
theorem compute_elevation_angle_bounded (sc ground : ℝ × ℝ × ℝ)
    (hg : ground ≠ (0, 0, 0)) :
    -90 ≤ compute_elevation_angle sc ground ∧
    compute_elevation_angle sc ground ≤ 90 ∧
    (norm3 (sub3 sc ground) < 1e-6 → compute_elevation_angle sc ground = 90) := by
  simp only [compute_elevation_angle]
  split_ifs with h
  · exact ⟨by norm_num, le_refl _, fun _ => rfl⟩
  · have hpi := Real.pi_pos
    have hscale : (0 : ℝ) ≤ 180 / Real.pi := by positivity
    have hhi : (Real.pi / 2) * (180 / Real.pi) = 90 := by
      field_simp
      ring
    have hlo : (-(Real.pi / 2)) * (180 / Real.pi) = -90 := by
      field_simp
      ring
    refine ⟨?_, ?_, fun hlt => absurd hlt h⟩
    · have := mul_le_mul_of_nonneg_right
        (Real.neg_pi_div_two_le_arcsin
          (min (max (dot3 (sub3 sc ground) (smul3 (1 / norm3 ground) ground) /
            norm3 (sub3 sc ground)) (-1)) 1)) hscale
      rw [hlo] at this
      exact this
    · have := mul_le_mul_of_nonneg_right
        (Real.arcsin_le_pi_div_two
          (min (max (dot3 (sub3 sc ground) (smul3 (1 / norm3 ground) ground) /
            norm3 (sub3 sc ground)) (-1)) 1)) hscale
      rw [hhi] at this
      exact this

/-- Witness for C10: a spacecraft directly above the ground point
`(6371, 0, 0)`. -/
theorem compute_elevation_angle_bounded_witness :
    -90 ≤ compute_elevation_angle (7000, 0, 0) (6371, 0, 0) ∧
    compute_elevation_angle (7000, 0, 0) (6371, 0, 0) ≤ 90 ∧
    (norm3 (sub3 (7000, 0, 0) (6371, 0, 0)) < 1e-6 →
      compute_elevation_angle (7000, 0, 0) (6371, 0, 0) = 90) :=
  compute_elevation_angle_bounded (7000, 0, 0) (6371, 0, 0) (by simp)

theorem ecef_to_lla_spherical (θ φ R : ℝ)
    (hθlo : -(Real.pi / 2) < θ) (hθhi : θ < Real.pi / 2)
    (hφ : φ ∈ Set.Ioc (-Real.pi) Real.pi) (hR : 0 < R) :
    (ecef_to_lla (R * Real.cos θ * Real.cos φ, R * Real.cos θ * Real.sin φ,
        R * Real.sin θ)).1 = θ * (180 / Real.pi) ∧
    (ecef_to_lla (R * Real.cos θ * Real.cos φ, R * Real.cos θ * Real.sin φ,
        R * Real.sin θ)).2.1 = φ * (180 / Real.pi) := by
  have hpi := Real.pi_pos
  have hcos : 0 < Real.cos θ := Real.cos_pos_of_mem_Ioo ⟨hθlo, hθhi⟩
  have hxy : Real.sqrt ((R * Real.cos θ * Real.cos φ) ^ 2 +
      (R * Real.cos θ * Real.sin φ) ^ 2) = R * Real.cos θ := by
    have hh : (R * Real.cos θ * Real.cos φ) ^ 2 +
        (R * Real.cos θ * Real.sin φ) ^ 2 = (R * Real.cos θ) ^ 2 := by
      linear_combination (R * Real.cos θ) ^ 2 * Real.sin_sq_add_cos_sq φ
    rw [hh]
    exact Real.sqrt_sq (by positivity)
  have hproj1 : ∀ x y z : ℝ, (ecef_to_lla (x, y, z)).1 =
      atan2 z (Real.sqrt (x ^ 2 + y ^ 2)) * (180 / Real.pi) := fun x y z => rfl
  have hproj2 : ∀ x y z : ℝ, (ecef_to_lla (x, y, z)).2.1 =
      atan2 y x * (180 / Real.pi) := fun x y z => rfl
  constructor
  · rw [hproj1, hxy]
    congr 1
    unfold atan2
    have hcast : ((R * Real.cos θ : ℝ) : ℂ) + ((R * Real.sin θ : ℝ) : ℂ) * Complex.I =
        ((R : ℝ) : ℂ) * (((Real.cos θ : ℝ) : ℂ) + ((Real.sin θ : ℝ) : ℂ) * Complex.I) := by
      push_cast
      ring
    rw [hcast, Complex.arg_real_mul _ hR, Complex.ofReal_cos, Complex.ofReal_sin]
    exact Complex.arg_cos_add_sin_mul_I ⟨by linarith, by linarith⟩
  · rw [hproj2]
    congr 1
    unfold atan2
    have hcast : ((R * Real.cos θ * Real.cos φ : ℝ) : ℂ) +
        ((R * Real.cos θ * Real.sin φ : ℝ) : ℂ) * Complex.I =
        ((R * Real.cos θ : ℝ) : ℂ) *
          (((Real.cos φ : ℝ) : ℂ) + ((Real.sin φ : ℝ) : ℂ) * Complex.I) := by
      push_cast
      ring
    rw [hcast, Complex.arg_real_mul _ (mul_pos hR hcos), Complex.ofReal_cos,
      Complex.ofReal_sin]
    exact Complex.arg_cos_add_sin_mul_I hφ

/-- C8 (amended).  `lla_to_ecef` followed by `ecef_to_lla` at altitude 0
recovers the latitude and longitude exactly for every latitude strictly
inside `(-90, 90)` and longitude in `(-180, 180]` — the principal range of
`arctan2`.  Outside that range the round trip cannot return the original
values: longitudes are reported modulo the principal value (see the
counterexample at longitude 360), and at the poles the longitude
information degenerates. -/
theorem lla_ecef_round_trip (lat lon : ℝ) (h1 : -90 < lat) (h2 : lat < 90)
    (h3 : -180 < lon) (h4 : lon ≤ 180) :
    (ecef_to_lla (lla_to_ecef lat lon 0)).1 = lat ∧
    (ecef_to_lla (lla_to_ecef lat lon 0)).2.1 = lon := by
  have hpi := Real.pi_pos
  have hs : (0 : ℝ) < Real.pi / 180 := by positivity
  have hexp : lla_to_ecef lat lon 0 =
      ((6371 + 0) * Real.cos (lat * (Real.pi / 180)) * Real.cos (lon * (Real.pi / 180)),
        (6371 + 0) * Real.cos (lat * (Real.pi / 180)) * Real.sin (lon * (Real.pi / 180)),
        (6371 + 0) * Real.sin (lat * (Real.pi / 180))) := rfl
  have hθlo : -(Real.pi / 2) < lat * (Real.pi / 180) := by
    have hmul : (-90 : ℝ) * (Real.pi / 180) < lat * (Real.pi / 180) :=
      mul_lt_mul_of_pos_right h1 hs
    have heq : (-90 : ℝ) * (Real.pi / 180) = -(Real.pi / 2) := by ring
    linarith [heq ▸ hmul]
  have hθhi : lat * (Real.pi / 180) < Real.pi / 2 := by
    have hmul : lat * (Real.pi / 180) < (90 : ℝ) * (Real.pi / 180) :=
      mul_lt_mul_of_pos_right h2 hs
    have heq : (90 : ℝ) * (Real.pi / 180) = Real.pi / 2 := by ring
    linarith [heq ▸ hmul]
  have hφlo : -Real.pi < lon * (Real.pi / 180) := by
    have hmul : (-180 : ℝ) * (Real.pi / 180) < lon * (Real.pi / 180) :=
      mul_lt_mul_of_pos_right h3 hs
    have heq : (-180 : ℝ) * (Real.pi / 180) = -Real.pi := by ring
    linarith [heq ▸ hmul]
  have hφhi : lon * (Real.pi / 180) ≤ Real.pi := by
    have hmul : lon * (Real.pi / 180) ≤ (180 : ℝ) * (Real.pi / 180) :=
      mul_le_mul_of_nonneg_right h4 hs.le
    have heq : (180 : ℝ) * (Real.pi / 180) = Real.pi := by ring
    linarith [heq ▸ hmul]
  have hcore := ecef_to_lla_spherical (lat * (Real.pi / 180)) (lon * (Real.pi / 180))
    (6371 + 0) hθlo hθhi ⟨hφlo, hφhi⟩ (by norm_num)
  have hback : ∀ x : ℝ, x * (Real.pi / 180) * (180 / Real.pi) = x := by
    intro x
    field_simp
  rw [hexp]
  exact ⟨hcore.1.trans (hback lat), hcore.2.trans (hback lon)⟩

/-- Witness for C8 (amended): latitude 30°, longitude 45°. -/
theorem lla_ecef_round_trip_witness :
    (ecef_to_lla (lla_to_ecef 30 45 0)).1 = 30 ∧
    (ecef_to_lla (lla_to_ecef 30 45 0)).2.1 = 45 :=
  lla_ecef_round_trip 30 45 (by norm_num) (by norm_num) (by norm_num) (by norm_num)

/-- C8 counterexample.  At latitude 0 and longitude 360 the round trip
returns longitude 0, not 360: `lla_to_ecef` maps longitude 360° to the
same ECEF point as longitude 0°, and `arctan2` reports the principal
value, so the claim quantified over *every* longitude fails. -/
theorem lla_round_trip_counterexample :
    (ecef_to_lla (lla_to_ecef 0 360 0)).2.1 ≠ 360 := by
  have h360 : (360 : ℝ) * (Real.pi / 180) = 2 * Real.pi := by ring
  have h0 : (0 : ℝ) * (Real.pi / 180) = 0 := by ring
  have hexp : lla_to_ecef 0 360 0 =
      ((6371 + 0) * Real.cos ((0 : ℝ) * (Real.pi / 180)) *
          Real.cos ((360 : ℝ) * (Real.pi / 180)),
        (6371 + 0) * Real.cos ((0 : ℝ) * (Real.pi / 180)) *
          Real.sin ((360 : ℝ) * (Real.pi / 180)),
        (6371 + 0) * Real.sin ((0 : ℝ) * (Real.pi / 180))) := rfl
  have hval : lla_to_ecef 0 360 0 = (6371 + 0, 0, 0) := by
    rw [hexp, h360, h0]
    rw [Real.cos_zero, Real.sin_zero, Real.cos_two_pi, Real.sin_two_pi]
    norm_num
  have hproj2 : ∀ x y z : ℝ, (ecef_to_lla (x, y, z)).2.1 =
      atan2 y x * (180 / Real.pi) := fun x y z => rfl
  rw [hval, hproj2]
  have harg : atan2 0 (6371 + 0) = 0 := by
    unfold atan2
    have hcast : ((6371 + 0 : ℝ) : ℂ) + ((0 : ℝ) : ℂ) * Complex.I =
        ((6371 + 0 : ℝ) : ℂ) := by
      push_cast
      ring
    rw [hcast]
    exact Complex.arg_ofReal_of_nonneg (by norm_num)
  rw [harg]
  norm_num

end AeroUnity
